import Mathlib

/-!
Verification development for the CodeRecoder snapshot engine.

The definitions below are a shallow embedding, in Lean, of the TypeScript
source of the repository: `src/fileSnapshotManager.ts` (file-level snapshot
store) and `src/projectSnapshotManager.ts` (project-level snapshot store,
change detector and restore planner).  File systems are modelled as
association lists from absolute path strings to file entries; node's
`path.resolve` is modelled as the identity on already-absolute, already
normalised paths (every path handled by the claims is of that shape);
SHA-256 is modelled as the identity on contents (a collision-free
abstraction - only equality of hashes is ever consulted by the code).
Fresh UUIDs, clock readings and the outcomes of external processes
(`git status`, `rsync`) are supplied as explicit parameters.
-/

/- ### String helpers (structural recursion, so that concrete evaluation
reduces in the kernel) -/

/-- Boolean test that `pre` is a leading run of `s` (character lists). -/
def listStartsWith (pre : List Char) : List Char → Bool
  | [] => pre.isEmpty
  | b :: bs =>
    match pre with
    | [] => true
    | a :: as => a == b && listStartsWith as bs

/-- Boolean test that `sub` occurs somewhere inside `s` (character lists). -/
def subOccurs (sub : List Char) : List Char → Bool
  | [] => sub.isEmpty
  | c :: rest => listStartsWith sub (c :: rest) || subOccurs sub rest

/-- Embeds JavaScript `s.startsWith(pre)`. -/
def strStarts (s pre : String) : Bool := listStartsWith pre.data s.data

/-- Embeds JavaScript `s.includes(sub)`. -/
def strHas (s sub : String) : Bool := subOccurs sub.data s.data

/-- Splits a character list on a separator character. -/
def splitChars (sep : Char) : List Char → List (List Char)
  | [] => [[]]
  | c :: cs =>
    match splitChars sep cs with
    | [] => [[]]
    | g :: gs => if c == sep then [] :: g :: gs else (c :: g) :: gs

/-- Path components of an absolute path string, split on the slash. -/
def pathComponents (s : String) : List String :=
  (splitChars '/' s.data).map (fun l => String.mk l)

/-- Embeds node's `path.basename` on normalised paths. -/
def basenameOf (s : String) : String := (pathComponents s).getLastD ""

/-- Joins two path pieces with a slash, as `path.join(a, b)` does on
already-normalised pieces. -/
def pathJoin (a b : String) : String := a ++ "/" ++ b

/- ### File-system model -/

/-- A regular file: its byte content (as a string) and its mtime in
epoch milliseconds.  The stat size of a file is the length of its
content. -/
structure FileEntry where
  content : String
  mtime : Nat
  deriving Repr, DecidableEq

/-- A file system is an association list from absolute paths to entries;
the first binding for a path wins, so writing conses a new binding. -/
def FSys : Type := List (String × FileEntry)

/-- Lookup of a path in the file-system model. -/
def fsRead (fs : FSys) (p : String) : Option FileEntry :=
  match fs with
  | [] => none
  | (q, e) :: rest => if q == p then some e else fsRead rest p

/-- Embeds `fs.pathExists` / `existsSync` for a regular file. -/
def fsExistsFile (fs : FSys) (p : String) : Bool := (fsRead fs p).isSome

/-- Embeds writing (or copying to) a destination path. -/
def fsWrite (fs : FSys) (p : String) (e : FileEntry) : FSys :=
  (p, e) :: fs

/-- Embeds `fs.remove(dir)` on a directory: drops the directory itself and
every file below it. -/
def fsRemoveDir (fs : FSys) (dir : String) : FSys :=
  fs.filter (fun q => !(q.1 == dir || strStarts q.1 (dir ++ "/")))

/-- A directory exists in the model when some file lives below it. -/
def fsExistsDir (fs : FSys) (dir : String) : Bool :=
  fs.any (fun q => strStarts q.1 (dir ++ "/"))

/- ### Path guard (`validatePath`, src/fileSnapshotManager.ts lines 126-155) -/

/-- The OS-sensitive path deny list of `validatePath`. -/
def sensitivePatterns : List String :=
  ["/etc/", "/usr/", "/bin/", "/sbin/", "/boot/", "/root/", "/sys/", "/proc/"]

/-- Embeds `validatePath(targetPath, allowedRoot?)`: reject a resolved path
that still contains a parent-directory reference, starts with a sensitive
OS path, or (when a root is given) escapes the allowed root.
`path.resolve` is the identity on the already-absolute normalised paths
considered here. -/
def validatePath (targetPath : String) (allowedRoot : Option String) : Bool :=
  if strHas targetPath ".." then false
  else if sensitivePatterns.any (fun pat => strStarts targetPath pat) then false
  else
    match allowedRoot with
    | some root => strStarts targetPath root
    | none => true

/- ### File snapshot store (src/fileSnapshotManager.ts) -/

/-- A file-level snapshot record (`FileSnapshot`), without the optional
AI-enrichment fields, which no claim consults. -/
structure FileSnap where
  id : String
  timestamp : Nat
  originalPath : String
  snapshotPath : String
  fileSize : Nat
  fileHash : String
  prompt : String
  sessionId : String
  deriving Repr, DecidableEq

/-- A snapshot session (`SnapshotSession`). -/
structure SnapSession where
  id : String
  name : String
  created : Nat
  lastModified : Nat
  snapshots : List FileSnap
  currentSnapshotId : Option String
  deriving Repr, DecidableEq

/-- The in-memory state of a `FileSnapshotManager`: the cache directory,
the snapshots directory derived from it, and the persisted index data. -/
structure FileStore where
  cacheDirectory : String
  snapshotsDirectory : String
  sessions : List SnapSession
  currentSessionId : Option String
  deriving Repr, DecidableEq

/-- Outcome of a file-store operation (`SnapshotResponse`), reduced to the
fields the claims consult. -/
structure SnapResult where
  success : Bool
  message : String
  snapshotId : Option String
  deriving Repr, DecidableEq

/-- SHA-256 modelled as the identity on the content string (collision-free
abstraction; the code only ever compares hashes for equality). -/
def hashHex (content : String) : String := content

/-- Applies `f` to the element at position `i` of a list (in-place update
of `this.data.sessions[sessionIndex]`). -/
def listUpdateAt {α : Type} (i : Nat) (f : α → α) : List α → List α
  | [] => []
  | x :: xs =>
    match i with
    | 0 => f x :: xs
    | n + 1 => x :: listUpdateAt n f xs

/-- Embeds `createSession` (fileSnapshotManager.ts lines 192-219): a fresh
session becomes current and is appended to the store. -/
def createSession (st : FileStore) (freshId : String) (now : Nat) : FileStore :=
  let session : SnapSession :=
    { id := freshId
      name := "Session " ++ toString (st.sessions.length + 1)
      created := now
      lastModified := now
      snapshots := []
      currentSnapshotId := none }
  { st with sessions := st.sessions ++ [session], currentSessionId := some freshId }

/-- Embeds `createSnapshot` (fileSnapshotManager.ts lines 224-383).
Faithful control flow: re-infer the cache directory when it is unset or
contains "CodeRecoder/.CodeRecoder" (the inferred project root is the
`inferredRoot` oracle); resolve or auto-create the session; fail with
NotFound when the source file is missing; then stat, read and hash the
file, copy it (and a metadata file) under
`snapshotsDirectory/<freshSnapId>/`, append the record to the session and
mark it current.  NOTE - as in the source, no call to `validatePath` is
made on `filePath`. -/
def createSnapshot (st : FileStore) (fs : FSys) (filePath : String)
    (prompt : String) (sessionId? : Option String)
    (inferredRoot : Option String) (freshSessionId freshSnapId : String)
    (now : Nat) : FileStore × FSys × SnapResult :=
  -- cache-directory re-inference branch (lines 235-241)
  let st :=
    if st.cacheDirectory == "" || strHas st.cacheDirectory "CodeRecoder/.CodeRecoder" then
      match inferredRoot with
      | some root =>
          let cache := pathJoin root ".CodeRecoder"
          { st with cacheDirectory := cache,
                    snapshotsDirectory := pathJoin cache "snapshots" }
      | none => st
    else st
  -- session resolution (lines 244-272)
  let resolved : FileStore × Option String :=
    match sessionId? with
    | some sid => (st, some sid)
    | none =>
      match st.currentSessionId with
      | some sid => (st, some sid)
      | none =>
        let st' := createSession st freshSessionId now
        (st', some freshSessionId)
  let st := resolved.1
  match resolved.2 with
  | none => (st, fs, { success := false, message := "Session not found", snapshotId := none })
  | some sid =>
    match st.sessions.findIdx? (fun s => s.id == sid) with
    | none => (st, fs, { success := false, message := "Session not found", snapshotId := none })
    | some sessionIndex =>
      -- source-file existence check (lines 275-281)
      match fsRead fs filePath with
      | none => (st, fs, { success := false, message := "File not found", snapshotId := none })
      | some entry =>
        -- stat, read, hash; copy under the snapshot directory (lines 285-319)
        let snapshotDir := pathJoin st.snapshotsDirectory freshSnapId
        let fileName := basenameOf filePath
        let snapshotFilePath := pathJoin snapshotDir fileName
        let fs := fsWrite fs snapshotFilePath { content := entry.content, mtime := now }
        let fs := fsWrite fs (pathJoin snapshotDir "metadata.json")
          { content := "metadata", mtime := now }
        let snap : FileSnap :=
          { id := freshSnapId
            timestamp := now
            originalPath := filePath
            snapshotPath := snapshotFilePath
            fileSize := entry.content.length
            fileHash := hashHex entry.content
            prompt := prompt
            sessionId := sid }
        -- append to the session, update lastModified and current id (lines 343-345)
        let sessions := listUpdateAt sessionIndex (fun s =>
          { s with snapshots := s.snapshots ++ [snap]
                   lastModified := now
                   currentSnapshotId := some snap.id }) st.sessions
        let st := { st with sessions := sessions }
        (st, fs, { success := true, message := "AI-enhanced snapshot created successfully",
                   snapshotId := some freshSnapId })

/-- Locates a snapshot id across sessions, returning the first owning
session together with the record and its index in that session (the
search loops of `restoreSnapshot` lines 459-470 and `deleteSnapshot`
lines 630-642). -/
def findSnapshot (sessions : List SnapSession) (snapshotId : String) :
    Option (SnapSession × FileSnap × Nat) :=
  match sessions with
  | [] => none
  | s :: rest =>
    match s.snapshots.findIdx? (fun sn => sn.id == snapshotId) with
    | some i =>
      match s.snapshots[i]? with
      | some sn => some (s, sn, i)
      | none => none
    | none => findSnapshot rest snapshotId

/-- Embeds `restoreSnapshot` (fileSnapshotManager.ts lines 455-546):
locate the snapshot; fail when the stored copy is missing; fail Corrupt
when the stored size mismatches the record; validate the destination with
the path guard; back the existing destination up to
`<originalPath>.backup.<now>`; copy the stored bytes over the
destination; mark the snapshot current in its session. -/
def restoreSnapshot (st : FileStore) (fs : FSys) (snapshotId : String)
    (now : Nat) : FileStore × FSys × SnapResult :=
  match findSnapshot st.sessions snapshotId with
  | none => (st, fs, { success := false, message := "Snapshot not found", snapshotId := none })
  | some (session, snap, _) =>
    match fsRead fs snap.snapshotPath with
    | none => (st, fs, { success := false, message := "Snapshot file not found", snapshotId := none })
    | some stored =>
      if stored.content.length != snap.fileSize then
        (st, fs, { success := false, message := "Snapshot file corrupted", snapshotId := none })
      else if !(validatePath snap.originalPath none) then
        (st, fs, { success := false, message := "path validation failed", snapshotId := none })
      else
        let backupPath := snap.originalPath ++ ".backup." ++ toString now
        let fs :=
          match fsRead fs snap.originalPath with
          | some current => fsWrite fs backupPath { content := current.content, mtime := now }
          | none => fs
        let fs :=
          match fsRead fs snap.snapshotPath with
          | some src => fsWrite fs snap.originalPath { content := src.content, mtime := now }
          | none => fs
        let sessions := st.sessions.map (fun s =>
          if s.id == session.id then { s with currentSnapshotId := some snapshotId } else s)
        ({ st with sessions := sessions }, fs,
         { success := true, message := "File restored successfully", snapshotId := some snapshotId })

/-- Embeds `deleteSnapshot` (fileSnapshotManager.ts lines 628-692): locate
the snapshot; remove the directory `cacheDirectory/snapshots/<id>` when it
exists (note - NOT the directory the snapshot was created in, which is
`snapshotsDirectory/<id>`); splice the record out of its session; repoint
the session's current id to the last remaining snapshot, or clear it. -/
def deleteSnapshot (st : FileStore) (fs : FSys) (snapshotId : String)
    (now : Nat) : FileStore × FSys × SnapResult :=
  match findSnapshot st.sessions snapshotId with
  | none => (st, fs, { success := false, message := "Snapshot not found", snapshotId := none })
  | some (session, _, snapshotIndex) =>
    let snapshotDir := pathJoin (pathJoin st.cacheDirectory "snapshots") snapshotId
    let fs := if fsExistsDir fs snapshotDir then fsRemoveDir fs snapshotDir else fs
    let sessions := st.sessions.map (fun s =>
      if s.id == session.id then
        let snapshots := s.snapshots.eraseIdx snapshotIndex
        let current :=
          if s.currentSnapshotId == some snapshotId then
            match snapshots.getLast? with
            | some lastSnap => some lastSnap.id
            | none => none
          else s.currentSnapshotId
        { s with snapshots := snapshots, lastModified := now, currentSnapshotId := current }
      else s)
    ({ st with sessions := sessions }, fs,
     { success := true, message := "Snapshot deleted successfully", snapshotId := some snapshotId })

/- ### Basic file-system lemmas -/

theorem fsRead_fsWrite (fs : FSys) (p q : String) (e : FileEntry) :
    fsRead (fsWrite fs p e) q = if p == q then some e else fsRead fs q := rfl

theorem append_ne_of_length_ne (a b : String) (hb : b.length ≠ 0) : a ≠ a ++ b := by
  intro h
  have hlen := congrArg String.length h
  rw [String.length_append] at hlen
  omega

/- ### C1 -/

/-- C1: the claim states that `create_file_snapshot` validates its
`file_path` via the path guard before writing, so that
`create_file_snapshot(file_path="/etc/passwd")` returns InvalidPath with
no index entry and no file under `snapshots/files/`.  The code never calls
`validatePath` in `createSnapshot`: evaluated at `/etc/passwd` (which the
guard rejects), the operation succeeds, an index entry for `/etc/passwd`
appears in the session, and a copy is written under `snapshots/files/`. -/
theorem c1_create_file_snapshot_skips_guard_code_bug :
    validatePath "/etc/passwd" none = false ∧
    (let r := createSnapshot
      { cacheDirectory := "/home/user/proj/.CodeRecoder"
        snapshotsDirectory := "/home/user/proj/.CodeRecoder/snapshots/files"
        sessions := []
        currentSessionId := none }
      [("/etc/passwd", { content := "rootx", mtime := 5 })]
      "/etc/passwd" "x" none none "sess1" "snap1" 100
     r.2.2.success = true ∧
     fsExistsFile r.2.1 "/home/user/proj/.CodeRecoder/snapshots/files/snap1/passwd" = true ∧
     r.1.sessions.map (fun s => s.snapshots.map (fun sn => sn.originalPath)) = [["/etc/passwd"]]) := by
  decide

/- ### C6 -/

/-- C6: the claim states that `delete_snapshot` removes both the
snapshot's on-disk directory and its index entry (repointing or clearing
the session pointer).  The store creates snapshot directories under
`snapshotsDirectory` = `<cache>/snapshots/files/<id>` (constructor, lines
80 and 286) but `deleteSnapshot` removes `<cache>/snapshots/<id>` (line
653), so the on-disk directory survives: below, the index entry is
removed and the pointer cleared, yet the stored file is still present. -/
theorem c6_delete_snapshot_leaves_directory_code_bug :
    (let r := deleteSnapshot
      { cacheDirectory := "/p/.CodeRecoder"
        snapshotsDirectory := "/p/.CodeRecoder/snapshots/files"
        sessions := [{ id := "sess"
                       name := "Session 1"
                       created := 1
                       lastModified := 1
                       snapshots := [{ id := "s1"
                                       timestamp := 1
                                       originalPath := "/p/a.txt"
                                       snapshotPath := "/p/.CodeRecoder/snapshots/files/s1/a.txt"
                                       fileSize := 1
                                       fileHash := "A"
                                       prompt := "x"
                                       sessionId := "sess" }]
                       currentSnapshotId := some "s1" }]
        currentSessionId := some "sess" }
      [("/p/.CodeRecoder/snapshots/files/s1/a.txt", { content := "A", mtime := 1 })]
      "s1" 9
     r.2.2.success = true ∧
     r.1.sessions.map (fun s => s.snapshots) = [[]] ∧
     r.1.sessions.map (fun s => s.currentSnapshotId) = [none] ∧
     fsExistsFile r.2.1 "/p/.CodeRecoder/snapshots/files/s1/a.txt" = true) := by
  decide

/- ### C8 -/

/-- C8: for every `restore_file_snapshot` call on a snapshot whose stored
copy passes the size check and whose destination passes the guard, the
prior contents of an existing destination are preserved in
`<original_path>.backup.<now_ms>` and afterwards the destination's bytes
equal the stored snapshot's bytes. -/
theorem c8_restore_backs_up_then_overwrites
    (st : FileStore) (fs : FSys) (sid : String) (now : Nat)
    (sess : SnapSession) (snap : FileSnap) (i : Nat)
    (hfind : findSnapshot st.sessions sid = some (sess, snap, i))
    (stored : FileEntry)
    (hstored : fsRead fs snap.snapshotPath = some stored)
    (hsize : stored.content.length = snap.fileSize)
    (hguard : validatePath snap.originalPath none = true)
    (cur : FileEntry)
    (hcur : fsRead fs snap.originalPath = some cur)
    (hnoalias : snap.snapshotPath ≠ snap.originalPath ++ ".backup." ++ toString now) :
    (restoreSnapshot st fs sid now).2.2.success = true ∧
    fsRead (restoreSnapshot st fs sid now).2.1 snap.originalPath =
      some { content := stored.content, mtime := now } ∧
    fsRead (restoreSnapshot st fs sid now).2.1
      (snap.originalPath ++ ".backup." ++ toString now) =
      some { content := cur.content, mtime := now } := by
  have hbackup_ne : snap.originalPath ≠ snap.originalPath ++ ".backup." ++ toString now := by
    rw [String.append_assoc]
    apply append_ne_of_length_ne
    rw [String.length_append]
    have h8 : (".backup." : String).length = 8 := rfl
    omega
  have hb1 : ((snap.originalPath ++ ".backup." ++ toString now) == snap.snapshotPath) = false := by
    simp [Ne.symm hnoalias]
  have hb2 : ((snap.originalPath ++ ".backup." ++ toString now) == snap.originalPath) = false := by
    simp [Ne.symm hbackup_ne]
  have hb3 : ((snap.originalPath == snap.originalPath ++ ".backup." ++ toString now)) = false := by
    simp [hbackup_ne]
  simp [restoreSnapshot, hfind, hstored, hcur, hsize, hguard, fsRead_fsWrite, hb1, hb2, hb3]

/-- C8 witness: the theorem applied to a store holding one snapshot of
`/p/a.txt` capturing "B" while the live file holds "A". -/
theorem c8_restore_backs_up_then_overwrites_witness :
    (restoreSnapshot
      { cacheDirectory := "/p/.CodeRecoder"
        snapshotsDirectory := "/p/.CodeRecoder/snapshots/files"
        sessions := [{ id := "sess", name := "Session 1", created := 1, lastModified := 1
                       snapshots := [{ id := "s1", timestamp := 1, originalPath := "/p/a.txt"
                                       snapshotPath := "/p/.CodeRecoder/snapshots/files/s1/a.txt"
                                       fileSize := 1, fileHash := "B", prompt := "x"
                                       sessionId := "sess" }]
                       currentSnapshotId := some "s1" }]
        currentSessionId := some "sess" }
      [("/p/.CodeRecoder/snapshots/files/s1/a.txt", { content := "B", mtime := 0 }),
       ("/p/a.txt", { content := "A", mtime := 0 })]
      "s1" 7).2.2.success = true ∧
    fsRead (restoreSnapshot
      { cacheDirectory := "/p/.CodeRecoder"
        snapshotsDirectory := "/p/.CodeRecoder/snapshots/files"
        sessions := [{ id := "sess", name := "Session 1", created := 1, lastModified := 1
                       snapshots := [{ id := "s1", timestamp := 1, originalPath := "/p/a.txt"
                                       snapshotPath := "/p/.CodeRecoder/snapshots/files/s1/a.txt"
                                       fileSize := 1, fileHash := "B", prompt := "x"
                                       sessionId := "sess" }]
                       currentSnapshotId := some "s1" }]
        currentSessionId := some "sess" }
      [("/p/.CodeRecoder/snapshots/files/s1/a.txt", { content := "B", mtime := 0 }),
       ("/p/a.txt", { content := "A", mtime := 0 })]
      "s1" 7).2.1 "/p/a.txt" = some { content := "B", mtime := 7 } ∧
    fsRead (restoreSnapshot
      { cacheDirectory := "/p/.CodeRecoder"
        snapshotsDirectory := "/p/.CodeRecoder/snapshots/files"
        sessions := [{ id := "sess", name := "Session 1", created := 1, lastModified := 1
                       snapshots := [{ id := "s1", timestamp := 1, originalPath := "/p/a.txt"
                                       snapshotPath := "/p/.CodeRecoder/snapshots/files/s1/a.txt"
                                       fileSize := 1, fileHash := "B", prompt := "x"
                                       sessionId := "sess" }]
                       currentSnapshotId := some "s1" }]
        currentSessionId := some "sess" }
      [("/p/.CodeRecoder/snapshots/files/s1/a.txt", { content := "B", mtime := 0 }),
       ("/p/a.txt", { content := "A", mtime := 0 })]
      "s1" 7).2.1 ("/p/a.txt" ++ ".backup." ++ toString 7) =
      some { content := "A", mtime := 7 } :=
  c8_restore_backs_up_then_overwrites
    { cacheDirectory := "/p/.CodeRecoder"
      snapshotsDirectory := "/p/.CodeRecoder/snapshots/files"
      sessions := [{ id := "sess", name := "Session 1", created := 1, lastModified := 1
                     snapshots := [{ id := "s1", timestamp := 1, originalPath := "/p/a.txt"
                                     snapshotPath := "/p/.CodeRecoder/snapshots/files/s1/a.txt"
                                     fileSize := 1, fileHash := "B", prompt := "x"
                                     sessionId := "sess" }]
                     currentSnapshotId := some "s1" }]
      currentSessionId := some "sess" }
    [("/p/.CodeRecoder/snapshots/files/s1/a.txt", { content := "B", mtime := 0 }),
     ("/p/a.txt", { content := "A", mtime := 0 })]
    "s1" 7
    { id := "sess", name := "Session 1", created := 1, lastModified := 1
      snapshots := [{ id := "s1", timestamp := 1, originalPath := "/p/a.txt"
                      snapshotPath := "/p/.CodeRecoder/snapshots/files/s1/a.txt"
                      fileSize := 1, fileHash := "B", prompt := "x"
                      sessionId := "sess" }]
      currentSnapshotId := some "s1" }
    { id := "s1", timestamp := 1, originalPath := "/p/a.txt"
      snapshotPath := "/p/.CodeRecoder/snapshots/files/s1/a.txt"
      fileSize := 1, fileHash := "B", prompt := "x", sessionId := "sess" }
    0 (by decide)
    { content := "B", mtime := 0 } (by decide) (by decide) (by decide)
    { content := "A", mtime := 0 } (by decide) (by decide)

/- ### Project snapshot store (src/projectSnapshotManager.ts) -/

/-- The two snapshot kinds (`type: 'incremental' | 'full'`). -/
inductive SnapKind where
  | full : SnapKind
  | incremental : SnapKind
  deriving Repr, DecidableEq

/-- A project snapshot record (`ProjectSnapshot`), reduced to the fields
the claims consult (`kind` embeds the source's `type` field, a Lean
keyword). -/
structure ProjSnapshot where
  id : String
  timestamp : Nat
  saveNumber : Nat
  kind : SnapKind
  changedFiles : List String
  prompt : String
  deriving Repr, DecidableEq

/-- A file baseline entry (`FileBaseline`). -/
structure FileBaseline where
  filePath : String
  lastModified : Nat
  fileSize : Nat
  contentHash : String
  lineCount : Option Nat
  deriving Repr, DecidableEq

/-- The persisted project store state (`ProjectSnapshotData`); the
`settings` object is inlined as `maxSnapshots` and `autoCleanup`. -/
structure ProjData where
  projectRoot : String
  currentSaveNumber : Nat
  lastFullSaveNumber : Nat
  fullSaveInterval : Nat
  snapshots : List ProjSnapshot
  fileBaselines : List (String × FileBaseline)
  lastScanTime : Nat
  maxSnapshots : Nat
  autoCleanup : Bool
  deriving Repr, DecidableEq

/-- Association-list lookup (JS object property access by key). -/
def assocFind {β : Type} (l : List (String × β)) (k : String) : Option β :=
  match l with
  | [] => none
  | (a, b) :: rest => if a == k then some b else assocFind rest k

/-- Association-list assignment (JS object property assignment: replaces
the binding in place, or appends a new one). -/
def assocSet {β : Type} (l : List (String × β)) (k : String) (v : β) : List (String × β) :=
  if l.any (fun kv => kv.1 == k) then
    l.map (fun kv => if kv.1 == k then (k, v) else kv)
  else l ++ [(k, v)]

/-- Embeds `path.relative(root, p)` for a path strictly below `root`. -/
def relPathOf (root p : String) : String :=
  String.mk (p.data.drop (root.data.length + 1))

/-- The blank-after-trim test of `line.trim()` used as a truthiness
filter on porcelain output lines (whitespace modelled as spaces). -/
def strBlank (s : String) : Bool := s.data.all (fun c => c == ' ')

/-- Embeds `getGitModifiedFiles` (projectSnapshotManager.ts lines
333-345): the porcelain output of `git status` (`none` when the tool is
absent or exits non-zero, which the catch turns into `[]`) is split into
lines, blank lines dropped, the two-character status plus separator
sliced off, entries starting with `.CodeRecoder` dropped, and the rest
resolved against the project root. -/
def getGitModifiedFiles (projectRoot : String) (porcelain : Option (List String)) : List String :=
  match porcelain with
  | none => []
  | some lines =>
    (((lines.filter (fun l => !(strBlank l))).map
        (fun l => String.mk (l.data.drop 3))).filter
        (fun f => !(strStarts f ".CodeRecoder"))).map
      (fun f => pathJoin projectRoot f)

/-- Exclude directory names of `getAllProjectFiles` (lines 1028). -/
def excludeDirs : List String :=
  [".git", "node_modules", ".CodeRecoder", "__pycache__", "dist", "build", ".next"]

/-- Exclude extensions of `getAllProjectFiles` (line 1029). -/
def excludeExtensions : List String := [".log", ".tmp", ".cache", ".DS_Store"]

/-- Embeds node's `path.extname` on a basename: the substring from the
last dot, empty when there is no dot or the only dot is the leading
character. -/
def extnameOf (name : String) : String :=
  match splitChars '.' name.data with
  | [] => ""
  | [_] => ""
  | [g, tail] => if g.isEmpty then "" else "." ++ String.mk tail
  | _ :: rest => "." ++ String.mk (rest.getLastD [])

/-- Membership of a relative path in the `getAllProjectFiles` walk
(lines 1026-1058): no directory component is excluded and neither the
extension nor the full basename is an excluded extension. -/
def fileIncluded (rel : String) : Bool :=
  let comps := pathComponents rel
  let name := comps.getLastD ""
  comps.dropLast.all (fun c => !(excludeDirs.contains c)) &&
    !(excludeExtensions.contains (extnameOf name)) &&
    !(excludeExtensions.contains name)

/-- Embeds `getAllProjectFiles(projectRoot)`: every file of the model
file system below the root whose relative path survives the exclusion
walk, in enumeration order. -/
def getAllProjectFiles (root : String) (fs : FSys) : List String :=
  (fs.filter (fun q =>
    strStarts q.1 (root ++ "/") && fileIncluded (relPathOf root q.1))).map (fun q => q.1)

/-- Line count of a content string (`content.split('\n').length`). -/
def lineCountOf (content : String) : Nat :=
  (splitChars (Char.ofNat 10) content.data).length

/-- Embeds `updateFileBaseline(filePath, projectRoot)` (lines 1063-1089):
stat and read the file, hash it, and store the baseline under the
relative path; on read failure the map is left unchanged. -/
def updateFileBaseline (root : String) (fs : FSys) (filePath : String)
    (bs : List (String × FileBaseline)) : List (String × FileBaseline) :=
  match fsRead fs filePath with
  | none => bs
  | some entry =>
    let rel := relPathOf root filePath
    assocSet bs rel
      { filePath := rel
        lastModified := entry.mtime
        fileSize := entry.content.length
        contentHash := hashHex entry.content
        lineCount := some (lineCountOf entry.content) }

/-- Embeds the loop of `getFilesByHashComparison` (lines 388-420) over
the baseline entries: for each known relative path that still exists,
re-hash the file; on mismatch report the absolute path and update the
baseline entry (hash and mtime) in place. -/
def hashCompareGo (root : String) (fs : FSys) :
    List (String × FileBaseline) → List String × List (String × FileBaseline)
  | [] => ([], [])
  | (rel, base) :: rest =>
    let filePath := pathJoin root rel
    let r := hashCompareGo root fs rest
    match fsRead fs filePath with
    | some entry =>
      if hashHex entry.content != base.contentHash then
        (filePath :: r.1,
         (rel, { base with contentHash := hashHex entry.content
                           lastModified := entry.mtime }) :: r.2)
      else (r.1, (rel, base) :: r.2)
    | none => (r.1, (rel, base) :: r.2)

/-- Embeds `getFilesByHashComparison(projectRoot)`. -/
def getFilesByHashComparison (root : String) (d : ProjData) (fs : FSys) :
    List String × ProjData :=
  let r := hashCompareGo root fs d.fileBaselines
  (r.1, { d with fileBaselines := r.2 })

/-- Embeds the loop of `getFilesByStatsComparison` (lines 350-383) over
the walked project files, threading the baseline map: a file without a
baseline is new (reported and baselined); a file whose size or mtime
differs from its baseline is reported and re-baselined. -/
def statsCompareGo (root : String) (fs : FSys) (bs : List (String × FileBaseline)) :
    List String → List String × List (String × FileBaseline)
  | [] => ([], bs)
  | filePath :: rest =>
    match fsRead fs filePath with
    | none => statsCompareGo root fs bs rest
    | some entry =>
      let rel := relPathOf root filePath
      match assocFind bs rel with
      | none =>
        let r := statsCompareGo root fs (updateFileBaseline root fs filePath bs) rest
        (filePath :: r.1, r.2)
      | some base =>
        if entry.content.length != base.fileSize || entry.mtime != base.lastModified then
          let r := statsCompareGo root fs (updateFileBaseline root fs filePath bs) rest
          (filePath :: r.1, r.2)
        else statsCompareGo root fs bs rest

/-- Embeds `getFilesByStatsComparison(projectRoot)`. -/
def getFilesByStatsComparison (root : String) (d : ProjData) (fs : FSys) :
    List String × ProjData :=
  let r := statsCompareGo root fs d.fileBaselines (getAllProjectFiles root fs)
  (r.1, { d with fileBaselines := r.2 })

/-- Embeds `getRecentlyModifiedFiles(projectRoot, timeRangeMs)` (lines
1154-1176): walked files whose mtime is strictly newer than
`now - timeRangeMs`. -/
def getRecentlyModifiedFiles (root : String) (fs : FSys) (now timeRangeMs : Nat) :
    List String :=
  (getAllProjectFiles root fs).filter (fun p =>
    match fsRead fs p with
    | some e => (now : Int) - timeRangeMs < e.mtime
    | none => false)

/-- Embeds `getModifiedFiles(projectRoot)` (lines 282-328): the
prioritised fallback chain VCS status, hash comparison, stat comparison,
recently-modified; the first layer with a non-empty result is returned
and `lastScanTime` is stamped with `now` on every path. -/
def getModifiedFiles (root : String) (d : ProjData) (fs : FSys)
    (porcelain : Option (List String)) (now : Nat) : List String × ProjData :=
  let gitFiles := getGitModifiedFiles root porcelain
  if gitFiles.length > 0 then (gitFiles, { d with lastScanTime := now })
  else
    let hashR := getFilesByHashComparison root d fs
    if hashR.1.length > 0 then (hashR.1, { hashR.2 with lastScanTime := now })
    else
      let statsR := getFilesByStatsComparison root hashR.2 fs
      if statsR.1.length > 0 then (statsR.1, { statsR.2 with lastScanTime := now })
      else
        let recentFiles := getRecentlyModifiedFiles root fs now 3600000
        (recentFiles, { statsR.2 with lastScanTime := now })

/-- Embeds `updateAllFileBaselines(projectRoot)` (lines 1280-1298). -/
def updateAllFileBaselines (root : String) (fs : FSys)
    (bs : List (String × FileBaseline)) : List (String × FileBaseline) :=
  (getAllProjectFiles root fs).foldl (fun acc p => updateFileBaseline root fs p acc) bs

/-- Embeds the change-detection part of `analyzeChangesWithSerena`
(lines 166-248): bootstrap the baseline map when it is empty, run
`getModifiedFiles`, and normalise the reported absolute paths to
relative-to-root.  The Serena symbol analysis only decorates the summary
fields and is dropped; `porcelain` is the `git status` oracle. -/
def analyzeChanges (root : String) (d : ProjData) (fs : FSys)
    (porcelain : Option (List String)) (now : Nat) : List String × ProjData :=
  let d :=
    if d.fileBaselines.length = 0 then
      { d with fileBaselines := updateAllFileBaselines root fs d.fileBaselines }
    else d
  let r := getModifiedFiles root d fs porcelain now
  let rels := r.1.map (fun f => if strStarts f "/" then relPathOf root f else f)
  (rels, r.2)

/-- The exclude patterns of `copyProjectFiles` (lines 574-586). -/
def excludePatterns : List String :=
  [".git", "node_modules", ".CodeRecoder", "__pycache__", "*.pyc", "*.log",
   ".DS_Store", "dist", "build", ".vscode", ".idea"]

/-- Occurrence of `needle` in `s` at an index of at least one. -/
def occursAfterStart (needle s : String) : Bool :=
  match s.data with
  | [] => false
  | _ :: t => subOccurs needle.data t

/-- Embeds the `shouldExclude` test of `copyDirectoryRecursive` (lines
624-632): a pattern containing a star is turned into the unanchored
regular expression `pattern.replace('*', '.*')` and tested against the
entry name - for the star patterns in use (shape `*.E`) that regex
matches exactly when the literal tail `E` occurs at a positive index of
the name; starless patterns are compared for equality. -/
def matchesPattern (pattern name : String) : Bool :=
  if strHas pattern "*" then occursAfterStart (String.mk (pattern.data.drop 2)) name
  else pattern == name

/-- Embeds the file set materialised by a full save (`copyProjectFiles`,
either through rsync with the same exclude set or through
`copyDirectoryRecursive`): every file below the project root none of
whose path components matches an exclude pattern, keyed by relative
path. -/
def copyTreeFiles (root : String) (fs : FSys) : List (String × String) :=
  (fs.filter (fun q =>
    strStarts q.1 (root ++ "/") &&
      (pathComponents (relPathOf root q.1)).all
        (fun comp => !(excludePatterns.any (fun pat => matchesPattern pat comp))))).map
    (fun q => (relPathOf root q.1, q.2.content))

/-- Embeds the file set materialised by an incremental save
(`copyChangedFiles`, lines 659-674): each changed path that still exists
is copied, missing sources are skipped. -/
def copyChangedFilesM (root : String) (fs : FSys) (changed : List String) :
    List (String × String) :=
  changed.filterMap (fun f =>
    match fsRead fs (pathJoin root f) with
    | some e => some (f, e.content)
    | none => none)

/-- Stable insertion into a timestamp-descending list (model of the JS
stable `sort((a, b) => b.timestamp - a.timestamp)`). -/
def insertByTsDesc (x : ProjSnapshot) : List ProjSnapshot → List ProjSnapshot
  | [] => [x]
  | y :: ys => if x.timestamp ≤ y.timestamp then y :: insertByTsDesc x ys else x :: y :: ys

/-- Stable sort by timestamp, newest first. -/
def sortByTsDesc (l : List ProjSnapshot) : List ProjSnapshot :=
  l.foldl (fun acc x => insertByTsDesc x acc) []

/-- Embeds `cleanupOldSnapshots` (lines 703-724): when over the cap,
keep only the `maxSnapshots` newest snapshots by timestamp (the kept
list itself ends up in timestamp-descending order, as in the source) and
drop the rest. -/
def cleanupOldSnapshots (d : ProjData) : ProjData :=
  if d.snapshots.length ≤ d.maxSnapshots then d
  else { d with snapshots := (sortByTsDesc d.snapshots).take d.maxSnapshots }

/-- Embeds the kind decision of `createProjectSnapshot` (lines 473-478),
followed below by the body of `createProjectSnapshot` (lines 426-543).
The save counter is
incremented first; change detection runs (`analyzeChanges`); an empty
detection falls back to `forceFileAnalysis` - supplied here as the
`forceResult` oracle, already relative - and, when that is empty too, to
the forced marker `['*']`; the kind is full when
`currentSaveNumber - lastFullSaveNumber >= fullSaveInterval` or no
snapshots exist, else incremental, and a full save stamps
`lastFullSaveNumber`; the snapshot is materialised (full copy versus
changed-file copy), appended, and retention cleanup runs.  `ioFail`
models an I/O error thrown inside `saveSnapshotFiles`: the catch returns
an error response, the in-memory counter and kind bookkeeping keep their
new values, and nothing is appended. -/
def decideKind (d : ProjData) : SnapKind :=
  if ((d.currentSaveNumber : Int) - (d.lastFullSaveNumber : Int) ≥ (d.fullSaveInterval : Int)) ∨
      d.snapshots.length = 0
  then SnapKind.full else SnapKind.incremental

/-- Embeds the body of `createProjectSnapshot`; see the comment on
`decideKind` above for the kind rule it applies (lines 473-478). -/
def createProjectSnapshot (d : ProjData) (root : String) (fs : FSys)
    (porcelain : Option (List String)) (forceResult : List String)
    (ioFail : Bool) (newId : String) (now : Nat) (prompt : String) :
    ProjData × Option (ProjSnapshot × List (String × String)) :=
  let d := { d with projectRoot := root, currentSaveNumber := d.currentSaveNumber + 1 }
  let ana := analyzeChanges root d fs porcelain now
  let d := ana.2
  let modified :=
    if ana.1.length = 0 then
      if forceResult.length = 0 then ["*"] else forceResult
    else ana.1
  let kind := decideKind d
  let d := if kind = SnapKind.full then { d with lastFullSaveNumber := d.currentSaveNumber } else d
  let snap : ProjSnapshot :=
    { id := newId
      timestamp := now
      saveNumber := d.currentSaveNumber
      kind := kind
      changedFiles := if kind = SnapKind.full then ["*"] else modified
      prompt := prompt }
  if ioFail then (d, none)
  else
    let written :=
      if kind = SnapKind.full then copyTreeFiles root fs
      else copyChangedFilesM root fs snap.changedFiles
    let d := { d with snapshots := d.snapshots ++ [snap] }
    let d := if d.autoCleanup then cleanupOldSnapshots d else d
    (d, some (snap, written))

/-- One call of a store history: its success flag, the fresh id, the
clock reading, the `git status` oracle, the force-analysis oracle, the
live project tree at call time, and the prompt. -/
structure COp where
  ok : Bool
  id : String
  ts : Nat
  porcelain : Option (List String)
  forceResult : List String
  fs : FSys
  prompt : String

/-- Runs a history of `create_project_snapshot` calls against a store. -/
def runHistory (root : String) (d0 : ProjData) (ops : List COp) : ProjData :=
  ops.foldl (fun d op =>
    (createProjectSnapshot d root op.fs op.porcelain op.forceResult (!op.ok) op.id op.ts op.prompt).1) d0

/-- The default initial store state of the constructor (lines 82-97). -/
def initialProjData : ProjData :=
  { projectRoot := ""
    currentSaveNumber := 0
    lastFullSaveNumber := 0
    fullSaveInterval := 10
    snapshots := []
    fileBaselines := []
    lastScanTime := 0
    maxSnapshots := 100
    autoCleanup := true }

/- ### Restore planner (`buildRestoreChain`, lines 1411-1493) -/

/-- Embeds `getSnapshotFileList(snapshotDir)` (lines 1498-1525) on a
snapshot directory given as relative-path/content pairs: the recursive
walk collects every file, skipping entries named
`snapshot_metadata.json` at any level. -/
def getSnapshotFileListM (dir : List (String × String)) : List String :=
  (dir.filter (fun q =>
    !((pathComponents q.1).contains "snapshot_metadata.json"))).map (fun q => q.1)

/-- Embeds the backward scan of `buildRestoreChain` (lines 1427-1441):
walk save numbers from `i` down to 1 and return the first full snapshot
whose directory is non-empty (`ne`); corrupted fulls are skipped. -/
def scanBackFull (snaps : List ProjSnapshot) (ne : String → Bool) : Nat → Option ProjSnapshot
  | 0 => none
  | i + 1 =>
    match snaps.find? (fun s => s.saveNumber == i + 1) with
    | some s =>
      if s.kind = SnapKind.full then
        if ne s.id then some s else scanBackFull snaps ne i
      else scanBackFull snaps ne i
    | none => scanBackFull snaps ne i

/-- Embeds the degraded fallback of `buildRestoreChain` (lines
1443-1464): all full snapshots, newest first by timestamp, and the first
with a non-empty directory wins. -/
def degradedBase (snaps : List ProjSnapshot) (ne : String → Bool) : Option ProjSnapshot :=
  (sortByTsDesc (snaps.filter (fun s => s.kind == SnapKind.full))).find? (fun s => ne s.id)

/-- Embeds one iteration of the forward loop of `buildRestoreChain`
(lines 1470-1489): a non-empty later full resets the chain to itself, a
corrupted later full is skipped, an incremental is appended, a missing
save number is skipped. -/
def forwardStep (snaps : List ProjSnapshot) (ne : String → Bool)
    (chain : List ProjSnapshot) (saveNum : Nat) : List ProjSnapshot :=
  match snaps.find? (fun s => s.saveNumber == saveNum) with
  | none => chain
  | some s =>
    if s.kind = SnapKind.full then
      if ne s.id then [s] else chain
    else chain ++ [s]

/-- Embeds `buildRestoreChain(targetSnapshot)` (lines 1411-1493), with
`ne id` the oracle for "the snapshot directory of `id` holds at least
one file".  A full target is validated and returned alone; an
incremental target gets the most recent usable full below it (or the
degraded fallback), then the forward loop over the intermediate save
numbers.  `none` models the thrown errors. -/
def buildRestoreChain (snaps : List ProjSnapshot) (ne : String → Bool)
    (target : ProjSnapshot) : Option (List ProjSnapshot) :=
  if target.kind = SnapKind.full then
    if !(ne target.id) && target.changedFiles.length > 0 then none
    else some [target]
  else
    let fromScan := scanBackFull snaps ne (target.saveNumber - 1)
    let base? :=
      match fromScan with
      | some b => some b
      | none => degradedBase snaps ne
    match base? with
    | none => none
    | some b =>
      some ((List.range' (b.saveNumber + 1) (target.saveNumber - b.saveNumber)).foldl
        (forwardStep snaps ne) [b])

/- ### Project restore (`restoreProjectSnapshot`, lines 770-884) -/

/-- Writes a list of relative-path/content pairs below the project root
(each a `copyFile` into place). -/
def applyWrites (root : String) (fs : FSys) (writes : List (String × String)) (now : Nat) : FSys :=
  writes.foldl (fun acc w => fsWrite acc (pathJoin root w.1) { content := w.2, mtime := now }) fs

/-- Embeds the full-snapshot mirror used by restore: on the rsync path
(`rsync -av --exclude='.CodeRecoder' dir/ root/`, no delete flag) every
directory file without a `.CodeRecoder` component is copied over the
root; on the fallback path `restoreProjectManually(dir, root, false)`
copies everything via `copyDirectoryRecursive` with an empty exclude
list.  Neither path removes any destination file. -/
def mirrorFull (root : String) (fs : FSys) (dir : List (String × String))
    (rsyncOk : Bool) (now : Nat) : FSys :=
  if rsyncOk then
    applyWrites root fs
      (dir.filter (fun q => !((pathComponents q.1).contains ".CodeRecoder"))) now
  else applyWrites root fs dir now

/-- Embeds the per-element loop of the incremental branch (lines
845-862): each changed file present in the snapshot directory is copied
into place, missing ones are logged and skipped. -/
def applyIncremental (root : String) (fs : FSys) (dir : List (String × String))
    (changed : List String) (now : Nat) : FSys :=
  changed.foldl (fun acc f =>
    match assocFind dir f with
    | some content => fsWrite acc (pathJoin root f) { content := content, mtime := now }
    | none => acc) fs

/-- Embeds the chain-replay loop of `restoreProjectSnapshot` (lines
823-864): each chain element is applied in order; an empty full aborts
with an error (partial writes so far are kept). -/
def applyChain (root : String) (snapDirs : String → List (String × String))
    (rsyncOk : Bool) (now : Nat) : List ProjSnapshot → FSys → FSys × Bool
  | [], fs => (fs, true)
  | s :: rest, fs =>
    if s.kind = SnapKind.full then
      if (getSnapshotFileListM (snapDirs s.id)).length = 0 then (fs, false)
      else applyChain root snapDirs rsyncOk now rest (mirrorFull root fs (snapDirs s.id) rsyncOk now)
    else
      applyChain root snapDirs rsyncOk now rest
        (applyIncremental root fs (snapDirs s.id) s.changedFiles now)

/-- Embeds `restoreProjectSnapshot(snapshotId)` (lines 770-884), with
`snapDirs` the on-disk snapshot directories.  The result is the store
state the method leaves in memory, the file system, the success flag and
an `indexRewritten` flag recording whether `saveData` was invoked (the
method never calls it).  A full target is mirrored after a non-emptiness
check; an incremental target is replayed through `buildRestoreChain`;
thrown errors are caught into an error response. -/
def restoreProjectSnapshot (d : ProjData) (snapDirs : String → List (String × String))
    (fs : FSys) (snapshotId : String) (rsyncOk : Bool) (now : Nat) :
    ProjData × FSys × Bool × Bool :=
  match d.snapshots.find? (fun s => s.id == snapshotId) with
  | none => (d, fs, false, false)
  | some snap =>
    if snap.kind = SnapKind.full then
      if (getSnapshotFileListM (snapDirs snap.id)).length = 0 then (d, fs, false, false)
      else (d, mirrorFull d.projectRoot fs (snapDirs snap.id) rsyncOk now, true, false)
    else
      let ne := fun i => (getSnapshotFileListM (snapDirs i)).length > 0
      match buildRestoreChain d.snapshots (fun i => decide (ne i)) snap with
      | none => (d, fs, false, false)
      | some chain =>
        let r := applyChain d.projectRoot snapDirs rsyncOk now chain fs
        (d, r.1, r.2, false)

/- ### C10 -/

theorem c10_restore_preserves_store
    (d : ProjData) (snapDirs : String → List (String × String)) (fs : FSys)
    (snapshotId : String) (rsyncOk : Bool) (now : Nat) :
    (restoreProjectSnapshot d snapDirs fs snapshotId rsyncOk now).1 = d ∧
    (restoreProjectSnapshot d snapDirs fs snapshotId rsyncOk now).2.2.2 = false := by
  unfold restoreProjectSnapshot
  split
  · exact ⟨rfl, rfl⟩
  · split
    · split
      · exact ⟨rfl, rfl⟩
      · exact ⟨rfl, rfl⟩
    · dsimp only
      split
      · exact ⟨rfl, rfl⟩
      · exact ⟨rfl, rfl⟩

/- ### C2 -/

theorem fsExistsFile_fsWrite (fs : FSys) (p q : String) (e : FileEntry)
    (h : fsExistsFile fs p = true) : fsExistsFile (fsWrite fs q e) p = true := by
  unfold fsExistsFile
  rw [fsRead_fsWrite]
  by_cases hq : (q == p) = true
  · rw [if_pos hq]
    rfl
  · rw [if_neg hq]
    exact h

theorem applyWrites_keeps (root : String) (writes : List (String × String)) (fs : FSys)
    (p : String) (now : Nat)
    (h : fsExistsFile fs p = true) :
    fsExistsFile (applyWrites root fs writes now) p = true := by
  induction writes generalizing fs with
  | nil => exact h
  | cons w rest ih =>
    exact ih _ (fsExistsFile_fsWrite _ _ _ _ h)

theorem mirrorFull_keeps (root : String) (fs : FSys) (dir : List (String × String))
    (rsyncOk : Bool) (now : Nat) (p : String)
    (h : fsExistsFile fs p = true) :
    fsExistsFile (mirrorFull root fs dir rsyncOk now) p = true := by
  unfold mirrorFull
  split
  · exact applyWrites_keeps _ _ _ _ _ h
  · exact applyWrites_keeps _ _ _ _ _ h

theorem applyIncremental_keeps (root : String) (fs : FSys)
    (dir : List (String × String)) (changed : List String) (now : Nat) (p : String)
    (h : fsExistsFile fs p = true) :
    fsExistsFile (applyIncremental root fs dir changed now) p = true := by
  unfold applyIncremental
  induction changed generalizing fs with
  | nil => exact h
  | cons f rest ih =>
    simp only [List.foldl_cons]
    cases hf : assocFind dir f with
    | none => exact ih _ h
    | some content => exact ih _ (fsExistsFile_fsWrite _ _ _ _ h)

theorem applyChain_keeps (root : String) (snapDirs : String → List (String × String))
    (rsyncOk : Bool) (now : Nat) (chain : List ProjSnapshot) (fs : FSys) (p : String)
    (h : fsExistsFile fs p = true) :
    fsExistsFile (applyChain root snapDirs rsyncOk now chain fs).1 p = true := by
  induction chain generalizing fs with
  | nil => exact h
  | cons s rest ih =>
    unfold applyChain
    split
    · split
      · exact h
      · exact ih _ (mirrorFull_keeps _ _ _ _ _ _ h)
    · exact ih _ (applyIncremental_keeps _ _ _ _ _ _ h)

/-- C2: no restore operation ever deletes a file outside the snapshot
payload - in fact the full-restore mirror passes no delete flag and every
chain step only copies files into place, so every file present in the
project tree before a `restore_project_snapshot` call is still present
afterwards. -/
theorem c2_restore_never_deletes
    (d : ProjData) (snapDirs : String → List (String × String)) (fs : FSys)
    (snapshotId : String) (rsyncOk : Bool) (now : Nat) (p : String)
    (h : fsExistsFile fs p = true) :
    fsExistsFile (restoreProjectSnapshot d snapDirs fs snapshotId rsyncOk now).2.1 p = true := by
  unfold restoreProjectSnapshot
  split
  · exact h
  · split
    · split
      · exact h
      · exact mirrorFull_keeps _ _ _ _ _ _ h
    · dsimp only
      split
      · exact h
      · exact applyChain_keeps _ _ _ _ _ _ _ h

/-- C2 witness: restoring a full snapshot over a tree that holds
`/r/keep.txt` (a file absent from the snapshot payload) leaves the file
in place. -/
theorem c2_restore_never_deletes_witness :
    fsExistsFile (restoreProjectSnapshot
      { projectRoot := "/r", currentSaveNumber := 1, lastFullSaveNumber := 1
        fullSaveInterval := 10
        snapshots := [{ id := "p1", timestamp := 5, saveNumber := 1
                        kind := SnapKind.full, changedFiles := ["*"], prompt := "init" }]
        fileBaselines := [], lastScanTime := 0, maxSnapshots := 100, autoCleanup := true }
      (fun i => if i == "p1" then [("a.txt", "hello")] else [])
      [("/r/keep.txt", { content := "precious", mtime := 3 })]
      "p1" true 9).2.1 "/r/keep.txt" = true :=
  c2_restore_never_deletes
    { projectRoot := "/r", currentSaveNumber := 1, lastFullSaveNumber := 1
      fullSaveInterval := 10
      snapshots := [{ id := "p1", timestamp := 5, saveNumber := 1
                      kind := SnapKind.full, changedFiles := ["*"], prompt := "init" }]
      fileBaselines := [], lastScanTime := 0, maxSnapshots := 100, autoCleanup := true }
    (fun i => if i == "p1" then [("a.txt", "hello")] else [])
    [("/r/keep.txt", { content := "precious", mtime := 3 })]
    "p1" true 9 "/r/keep.txt" (by decide)

/- ### C7 -/

theorem getModifiedFiles_frame (root : String) (d : ProjData) (fs : FSys)
    (g : Option (List String)) (now : Nat) :
    (getModifiedFiles root d fs g now).2.currentSaveNumber = d.currentSaveNumber ∧
    (getModifiedFiles root d fs g now).2.lastFullSaveNumber = d.lastFullSaveNumber ∧
    (getModifiedFiles root d fs g now).2.snapshots = d.snapshots ∧
    (getModifiedFiles root d fs g now).2.fullSaveInterval = d.fullSaveInterval ∧
    (getModifiedFiles root d fs g now).2.maxSnapshots = d.maxSnapshots ∧
    (getModifiedFiles root d fs g now).2.autoCleanup = d.autoCleanup ∧
    (getModifiedFiles root d fs g now).2.projectRoot = d.projectRoot := by
  unfold getModifiedFiles getFilesByHashComparison getFilesByStatsComparison
  dsimp only
  split_ifs <;> simp

theorem analyzeChanges_frame (root : String) (d : ProjData) (fs : FSys)
    (g : Option (List String)) (now : Nat) :
    (analyzeChanges root d fs g now).2.currentSaveNumber = d.currentSaveNumber ∧
    (analyzeChanges root d fs g now).2.lastFullSaveNumber = d.lastFullSaveNumber ∧
    (analyzeChanges root d fs g now).2.snapshots = d.snapshots ∧
    (analyzeChanges root d fs g now).2.fullSaveInterval = d.fullSaveInterval ∧
    (analyzeChanges root d fs g now).2.maxSnapshots = d.maxSnapshots ∧
    (analyzeChanges root d fs g now).2.autoCleanup = d.autoCleanup ∧
    (analyzeChanges root d fs g now).2.projectRoot = d.projectRoot := by
  unfold analyzeChanges
  by_cases hb : d.fileBaselines.length = 0
  · rw [if_pos hb]
    exact getModifiedFiles_frame root _ fs g now
  · rw [if_neg hb]
    exact getModifiedFiles_frame root _ fs g now

theorem cleanup_frame (d : ProjData) :
    (cleanupOldSnapshots d).lastFullSaveNumber = d.lastFullSaveNumber ∧
    (cleanupOldSnapshots d).currentSaveNumber = d.currentSaveNumber ∧
    (cleanupOldSnapshots d).maxSnapshots = d.maxSnapshots ∧
    (cleanupOldSnapshots d).autoCleanup = d.autoCleanup := by
  unfold cleanupOldSnapshots
  split <;> simp

theorem decideKind_full_iff (d : ProjData) :
    decideKind d = SnapKind.full ↔
      (((d.currentSaveNumber : Int) - d.lastFullSaveNumber ≥ d.fullSaveInterval) ∨
        d.snapshots = []) := by
  unfold decideKind
  split_ifs with hc
  · simp only [List.length_eq_zero] at hc
    simp [hc]
  · simp only [List.length_eq_zero] at hc
    simp [hc]

theorem createProjectSnapshot_ok_eq (d : ProjData) (root : String) (fs : FSys)
    (g : Option (List String)) (force : List String) (newId : String) (now : Nat)
    (prompt : String) :
    createProjectSnapshot d root fs g force false newId now prompt =
      (let d1 : ProjData := { d with projectRoot := root, currentSaveNumber := d.currentSaveNumber + 1 }
       let ana := analyzeChanges root d1 fs g now
       let modified := if ana.1.length = 0 then (if force.length = 0 then ["*"] else force) else ana.1
       let kind := decideKind ana.2
       let d2 := if kind = SnapKind.full then
           { ana.2 with lastFullSaveNumber := ana.2.currentSaveNumber } else ana.2
       let snap : ProjSnapshot :=
         { id := newId, timestamp := now, saveNumber := d2.currentSaveNumber, kind := kind
           changedFiles := if kind = SnapKind.full then ["*"] else modified, prompt := prompt }
       let written := if kind = SnapKind.full then copyTreeFiles root fs
         else copyChangedFilesM root fs snap.changedFiles
       let d3 := { d2 with snapshots := d2.snapshots ++ [snap] }
       ((if d3.autoCleanup then cleanupOldSnapshots d3 else d3), some (snap, written))) := rfl

/-- C7: `create_project_snapshot` chooses kind full exactly when
`current_save_number - last_full_save_number >= full_save_interval`
(with the freshly incremented counter) or the store has no snapshots yet
- in particular the first-ever snapshot on an empty store is full - and
whenever the kind is full the resulting state has
`last_full_save_number = current_save_number` (when incremental it is
unchanged). -/
theorem c7_kind_decision (d : ProjData) (root : String) (fs : FSys)
    (porcelain : Option (List String)) (force : List String)
    (newId : String) (now : Nat) (prompt : String) :
    ∃ snap written,
      (createProjectSnapshot d root fs porcelain force false newId now prompt).2 =
        some (snap, written) ∧
      snap.saveNumber = d.currentSaveNumber + 1 ∧
      (snap.kind = SnapKind.full ↔
        (((d.currentSaveNumber : Int) + 1 - d.lastFullSaveNumber ≥ d.fullSaveInterval) ∨
          d.snapshots = [])) ∧
      (d.snapshots = [] → snap.kind = SnapKind.full) ∧
      (snap.kind = SnapKind.full →
        (createProjectSnapshot d root fs porcelain force false newId now prompt).1.lastFullSaveNumber
          = d.currentSaveNumber + 1) ∧
      (snap.kind = SnapKind.incremental →
        (createProjectSnapshot d root fs porcelain force false newId now prompt).1.lastFullSaveNumber
          = d.lastFullSaveNumber) := by
  rw [createProjectSnapshot_ok_eq]
  dsimp only
  have hfr := analyzeChanges_frame root
    { d with projectRoot := root, currentSaveNumber := d.currentSaveNumber + 1 } fs porcelain now
  set A := analyzeChanges root
    { d with projectRoot := root, currentSaveNumber := d.currentSaveNumber + 1 } fs porcelain now with hA
  obtain ⟨hc, hl, hs, hi, hm, ha, hp⟩ := hfr
  simp only at hc hl hs hi hm ha hp
  have hiff : decideKind A.2 = SnapKind.full ↔
      (((d.currentSaveNumber : Int) + 1 - d.lastFullSaveNumber ≥ d.fullSaveInterval) ∨
        d.snapshots = []) := by
    rw [decideKind_full_iff, hc, hl, hi, hs]
    push_cast
    rfl
  by_cases hk : decideKind A.2 = SnapKind.full
  · simp only [if_pos hk]
    refine ⟨_, _, rfl, ?_, ?_, ?_, ?_, ?_⟩
    · exact hc
    · exact ⟨fun _ => hiff.mp hk, fun _ => hk⟩
    · exact fun _ => hk
    · intro _
      split
      · rw [(cleanup_frame _).1]
        exact hc
      · exact hc
    · intro hbad
      exact absurd (hk.symm.trans hbad) (by decide)
  · simp only [if_neg hk]
    refine ⟨_, _, rfl, ?_, ?_, ?_, ?_, ?_⟩
    · exact hc
    · exact ⟨fun hcontra => absurd hcontra hk, fun hr => absurd (hiff.mpr hr) hk⟩
    · exact fun hemp => absurd (hiff.mpr (Or.inr hemp)) hk
    · exact fun hcontra => absurd hcontra hk
    · intro _
      split
      · rw [(cleanup_frame _).1]
        exact hl
      · exact hl

/-- C7 witness: the theorem applied to the pristine store (no snapshots)
shows the first-ever snapshot is full. -/
theorem c7_kind_decision_witness :
    ∃ snap written,
      (createProjectSnapshot initialProjData "/r"
        [("/r/a.txt", { content := "hello", mtime := 40 })]
        (some ["M  a.txt"]) [] false "n1" 50 "init").2 = some (snap, written) ∧
      snap.kind = SnapKind.full := by
  obtain ⟨snap, written, heq, _, _, hfirst, _, _⟩ :=
    c7_kind_decision initialProjData "/r"
      [("/r/a.txt", { content := "hello", mtime := 40 })]
      (some ["M  a.txt"]) [] "n1" 50 "init"
  exact ⟨snap, written, heq, hfirst rfl⟩

/- ### C9 -/

theorem hashCompareGo_files_nil (root : String) (fs : FSys)
    (bs : List (String × FileBaseline))
    (h : (hashCompareGo root fs bs).1 = []) : (hashCompareGo root fs bs).2 = bs := by
  induction bs with
  | nil => rfl
  | cons kv rest ih =>
    obtain ⟨rel, base⟩ := kv
    simp only [hashCompareGo] at h ⊢
    cases hr : fsRead fs (pathJoin root rel) with
    | some entry =>
      simp only [hr] at h ⊢
      by_cases hm : (hashHex entry.content != base.contentHash) = true
      · rw [if_pos hm] at h
        exact absurd h (List.cons_ne_nil _ _)
      · rw [if_neg hm] at h ⊢
        rw [ih h]
    | none =>
      simp only [hr] at h ⊢
      rw [ih h]

theorem statsCompareGo_files_nil (root : String) (fs : FSys)
    (files : List String) (bs : List (String × FileBaseline))
    (h : (statsCompareGo root fs bs files).1 = []) :
    (statsCompareGo root fs bs files).2 = bs := by
  induction files generalizing bs with
  | nil => rfl
  | cons filePath rest ih =>
    simp only [statsCompareGo] at h ⊢
    cases hr : fsRead fs filePath with
    | none =>
      simp only [hr] at h ⊢
      exact ih bs h
    | some entry =>
      simp only [hr] at h ⊢
      cases hb : assocFind bs (relPathOf root filePath) with
      | none =>
        simp only [hb] at h
        exact absurd h (List.cons_ne_nil _ _)
      | some base =>
        simp only [hb] at h ⊢
        by_cases hm : (entry.content.length != base.fileSize ||
            entry.mtime != base.lastModified) = true
        · rw [if_pos hm] at h
          exact absurd h (List.cons_ne_nil _ _)
        · rw [if_neg hm] at h ⊢
          exact ih bs h

/-- C9: the change detector tries VCS status, hash comparison, stat
comparison and the recently-modified fallback in that order, returns the
result of the first layer with a non-empty result (later layers are not
consulted - in particular, when an earlier layer wins the baselines are
untouched), and stamps `lastScanTime := now` on every call. -/
theorem c9_detector_priority (root : String) (d : ProjData) (fs : FSys)
    (porcelain : Option (List String)) (now : Nat) :
    (getModifiedFiles root d fs porcelain now).2.lastScanTime = now ∧
    (getGitModifiedFiles root porcelain ≠ [] →
      getModifiedFiles root d fs porcelain now =
        (getGitModifiedFiles root porcelain, { d with lastScanTime := now })) ∧
    (getGitModifiedFiles root porcelain = [] →
      (getFilesByHashComparison root d fs).1 ≠ [] →
      (getModifiedFiles root d fs porcelain now).1 = (getFilesByHashComparison root d fs).1) ∧
    (getGitModifiedFiles root porcelain = [] →
      (getFilesByHashComparison root d fs).1 = [] →
      (getFilesByStatsComparison root d fs).1 ≠ [] →
      (getModifiedFiles root d fs porcelain now).1 = (getFilesByStatsComparison root d fs).1) ∧
    (getGitModifiedFiles root porcelain = [] →
      (getFilesByHashComparison root d fs).1 = [] →
      (getFilesByStatsComparison root d fs).1 = [] →
      (getModifiedFiles root d fs porcelain now).1 =
        getRecentlyModifiedFiles root fs now 3600000) := by
  unfold getModifiedFiles
  dsimp only
  by_cases hg : getGitModifiedFiles root porcelain = []
  · rw [if_neg (by simp [hg])]
    by_cases hh : (getFilesByHashComparison root d fs).1 = []
    · have hh2 : (getFilesByHashComparison root d fs).2 = d := by
        have h2 := hashCompareGo_files_nil root fs d.fileBaselines hh
        show ({ d with fileBaselines := (hashCompareGo root fs d.fileBaselines).2 } : ProjData) = d
        rw [h2]
      rw [if_neg (by simp [hh])]
      rw [hh2]
      by_cases hst : (getFilesByStatsComparison root d fs).1 = []
      · rw [if_neg (by simp [hst])]
        exact ⟨rfl,
          fun hcontra => absurd hg hcontra,
          fun _ hcontra => absurd hh hcontra,
          fun _ _ hcontra => absurd hst hcontra,
          fun _ _ _ => rfl⟩
      · rw [if_pos (List.length_pos.mpr hst)]
        exact ⟨rfl,
          fun hcontra => absurd hg hcontra,
          fun _ hcontra => absurd hh hcontra,
          fun _ _ _ => rfl,
          fun _ _ hcontra => absurd hcontra hst⟩
    · rw [if_pos (List.length_pos.mpr hh)]
      exact ⟨rfl,
        fun hcontra => absurd hg hcontra,
        fun _ _ => rfl,
        fun _ hcontra _ => absurd hcontra hh,
        fun _ hcontra _ => absurd hcontra hh⟩
  · rw [if_pos (List.length_pos.mpr hg)]
    exact ⟨rfl,
      fun _ => rfl,
      fun hcontra _ => absurd hcontra hg,
      fun hcontra _ _ => absurd hcontra hg,
      fun hcontra _ _ => absurd hcontra hg⟩

/-- C9 witness: with `git status` reporting one change, the detector
returns the git layer's result and stamps the scan time. -/
theorem c9_detector_priority_witness :
    getModifiedFiles "/r" initialProjData [("/r/a.txt", { content := "x", mtime := 1 })]
      (some ["M  a.txt"]) 99 =
      (["/r/a.txt"], { initialProjData with lastScanTime := 99 }) := by
  have h2 := (c9_detector_priority "/r" initialProjData
    [("/r/a.txt", { content := "x", mtime := 1 })] (some ["M  a.txt"]) 99).2.1 (by decide)
  rw [h2]
  decide

/- ### C5 -/

/-- C5 counterexample: with a non-empty history, no detected changes and
an empty force-analysis, the call produces the forced `['*']` record and
increments the counter, but its kind is incremental and its
materialisation copies the literal path `*` - i.e. nothing - while a
full materialisation of the same tree would copy `a.txt`: the forced
snapshot is NOT materialised with the semantics of a full snapshot. -/
theorem c5_forced_snapshot_counterexample :
    (createProjectSnapshot
      { projectRoot := "/r", currentSaveNumber := 1, lastFullSaveNumber := 1
        fullSaveInterval := 10
        snapshots := [{ id := "p1", timestamp := 500, saveNumber := 1
                        kind := SnapKind.full, changedFiles := ["*"], prompt := "init" }]
        fileBaselines := [("a.txt", { filePath := "a.txt", lastModified := 1000
                                      fileSize := 5, contentHash := "hello"
                                      lineCount := some 1 })]
        lastScanTime := 0, maxSnapshots := 100, autoCleanup := true }
      "/r" [("/r/a.txt", { content := "hello", mtime := 1000 })]
      none [] false "n2" 7200000 "save").2 =
      some ({ id := "n2", timestamp := 7200000, saveNumber := 2
              kind := SnapKind.incremental, changedFiles := ["*"], prompt := "save" }, []) ∧
    copyTreeFiles "/r" [("/r/a.txt", { content := "hello", mtime := 1000 })] ≠ [] := by
  decide

/-- C5 amended: a `create_project_snapshot` call whose change detection
is empty after all fallbacks, on a store with history, produces a forced
snapshot with `changed_files = ['*']` and still increments the save
counter; its kind follows the ordinary full/incremental interval rule,
and when it is incremental the materialisation only looks up the literal
path `*` (copying no files when no file of that name exists) rather than
copying the tree as a full snapshot would. -/
theorem c5_forced_snapshot_amended (d : ProjData) (root : String) (fs : FSys)
    (porcelain : Option (List String)) (force : List String) (newId : String)
    (now : Nat) (prompt : String)
    (hdet : (analyzeChanges root
      { d with projectRoot := root, currentSaveNumber := d.currentSaveNumber + 1 }
      fs porcelain now).1 = [])
    (hforce : force = [])
    (_hnonempty : d.snapshots ≠ []) :
    ∃ snap written,
      (createProjectSnapshot d root fs porcelain force false newId now prompt).2 =
        some (snap, written) ∧
      snap.changedFiles = ["*"] ∧
      snap.saveNumber = d.currentSaveNumber + 1 ∧
      (snap.kind = SnapKind.incremental → written = copyChangedFilesM root fs ["*"]) ∧
      (snap.kind = SnapKind.incremental → fsRead fs (pathJoin root "*") = none →
        written = []) := by
  rw [createProjectSnapshot_ok_eq]
  dsimp only
  have hfr := analyzeChanges_frame root
    { d with projectRoot := root, currentSaveNumber := d.currentSaveNumber + 1 } fs porcelain now
  set A := analyzeChanges root
    { d with projectRoot := root, currentSaveNumber := d.currentSaveNumber + 1 } fs porcelain now with hA
  obtain ⟨hc, _, _, _, _, _, _⟩ := hfr
  simp only at hc
  simp only [hdet, hforce, List.length_nil, if_pos rfl]
  by_cases hk : decideKind A.2 = SnapKind.full
  · simp only [if_pos hk]
    refine ⟨_, _, rfl, rfl, hc, ?_, ?_⟩
    · intro hbad
      exact absurd (hk.symm.trans hbad) (by decide)
    · intro hbad _
      exact absurd (hk.symm.trans hbad) (by decide)
  · simp only [if_neg hk]
    refine ⟨_, _, rfl, rfl, hc, fun _ => rfl, ?_⟩
    intro _ hnone
    show copyChangedFilesM root fs ["*"] = []
    simp [copyChangedFilesM, hnone]

/-- C5 witness: the amended theorem applied to a one-snapshot store over
an unchanged tree. -/
theorem c5_forced_snapshot_amended_witness :
    ∃ snap written,
      (createProjectSnapshot
        { projectRoot := "/r", currentSaveNumber := 1, lastFullSaveNumber := 1
          fullSaveInterval := 10
          snapshots := [{ id := "p1", timestamp := 500, saveNumber := 1
                          kind := SnapKind.full, changedFiles := ["*"], prompt := "init" }]
          fileBaselines := [("a.txt", { filePath := "a.txt", lastModified := 1000
                                        fileSize := 5, contentHash := "hello"
                                        lineCount := some 1 })]
          lastScanTime := 0, maxSnapshots := 100, autoCleanup := true }
        "/r" [("/r/a.txt", { content := "hello", mtime := 1000 })]
        none [] false "n2" 7200000 "save").2 = some (snap, written) ∧
      snap.changedFiles = ["*"] ∧
      snap.saveNumber = 2 := by
  obtain ⟨snap, written, h1, h2, h3, _, _⟩ :=
    c5_forced_snapshot_amended
      { projectRoot := "/r", currentSaveNumber := 1, lastFullSaveNumber := 1
        fullSaveInterval := 10
        snapshots := [{ id := "p1", timestamp := 500, saveNumber := 1
                        kind := SnapKind.full, changedFiles := ["*"], prompt := "init" }]
        fileBaselines := [("a.txt", { filePath := "a.txt", lastModified := 1000
                                      fileSize := 5, contentHash := "hello"
                                      lineCount := some 1 })]
        lastScanTime := 0, maxSnapshots := 100, autoCleanup := true }
      "/r" [("/r/a.txt", { content := "hello", mtime := 1000 })]
      none [] "n2" 7200000 "save" (by decide) rfl (by decide)
  exact ⟨snap, written, h1, h2, h3⟩

/- ### C4 -/

theorem range_one_concat (s n : Nat) :
    List.range' s (n + 1) = List.range' s n ++ [s + n] := by
  have h := @List.range'_concat 1 s n
  simpa using h

theorem cleanup_noop (d : ProjData) (h : d.snapshots.length ≤ d.maxSnapshots) :
    cleanupOldSnapshots d = d := by
  unfold cleanupOldSnapshots
  rw [if_pos h]

theorem createProjectSnapshot_step_inv (d : ProjData) (root : String) (fs : FSys)
    (g : Option (List String)) (force : List String) (newId : String) (now : Nat)
    (prompt : String)
    (hlen : d.snapshots.length + 1 ≤ d.maxSnapshots) :
    ∃ snap : ProjSnapshot,
      (createProjectSnapshot d root fs g force false newId now prompt).1.snapshots =
        d.snapshots ++ [snap] ∧
      snap.saveNumber = d.currentSaveNumber + 1 ∧
      (createProjectSnapshot d root fs g force false newId now prompt).1.currentSaveNumber =
        d.currentSaveNumber + 1 ∧
      (createProjectSnapshot d root fs g force false newId now prompt).1.maxSnapshots =
        d.maxSnapshots := by
  rw [createProjectSnapshot_ok_eq]
  dsimp only
  have hfr := analyzeChanges_frame root
    { d with projectRoot := root, currentSaveNumber := d.currentSaveNumber + 1 } fs g now
  set A := analyzeChanges root
    { d with projectRoot := root, currentSaveNumber := d.currentSaveNumber + 1 } fs g now with hA
  obtain ⟨hc, hl, hs, hi, hm, ha, hp⟩ := hfr
  simp only at hc hl hs hi hm ha hp
  by_cases hk : decideKind A.2 = SnapKind.full
  · simp only [if_pos hk]
    have hnoop := cleanup_noop
      { A.2 with lastFullSaveNumber := A.2.currentSaveNumber
                 snapshots := A.2.snapshots ++
                   [{ id := newId, timestamp := now, saveNumber := A.2.currentSaveNumber
                      kind := decideKind A.2, changedFiles := ["*"], prompt := prompt }] }
      (by simp only [List.length_append, List.length_cons, List.length_nil, hs, hm]; omega)
    refine ⟨{ id := newId, timestamp := now, saveNumber := A.2.currentSaveNumber
              kind := decideKind A.2, changedFiles := ["*"], prompt := prompt },
            ?_, hc, ?_, ?_⟩
    · split
      · rw [hnoop, hs]
      · rw [hs]
    · split
      · rw [hnoop]
        exact hc
      · exact hc
    · split
      · rw [hnoop]
        exact hm
      · exact hm
  · simp only [if_neg hk]
    have hnoop := cleanup_noop
      { A.2 with snapshots := A.2.snapshots ++
          [{ id := newId, timestamp := now, saveNumber := A.2.currentSaveNumber
             kind := decideKind A.2
             changedFiles := if A.1.length = 0 then (if force.length = 0 then ["*"] else force)
               else A.1
             prompt := prompt }] }
      (by simp only [List.length_append, List.length_cons, List.length_nil, hs, hm]; omega)
    refine ⟨{ id := newId, timestamp := now, saveNumber := A.2.currentSaveNumber
              kind := decideKind A.2
              changedFiles := if A.1.length = 0 then (if force.length = 0 then ["*"] else force)
                else A.1
              prompt := prompt },
            ?_, hc, ?_, ?_⟩
    · split
      · rw [hnoop, hs]
      · rw [hs]
    · split
      · rw [hnoop]
        exact hc
      · exact hc
    · split
      · rw [hnoop]
        exact hm
      · exact hm

theorem runHistory_inv (root : String) (ops : List COp) :
    ∀ d : ProjData,
      (∀ op ∈ ops, op.ok = true) →
      d.snapshots.length + ops.length ≤ d.maxSnapshots →
      d.snapshots.map (fun s => s.saveNumber) = List.range' 1 d.currentSaveNumber →
      (runHistory root d ops).snapshots.map (fun s => s.saveNumber) =
        List.range' 1 (runHistory root d ops).currentSaveNumber ∧
      (runHistory root d ops).currentSaveNumber = d.currentSaveNumber + ops.length ∧
      (runHistory root d ops).maxSnapshots = d.maxSnapshots := by
  induction ops with
  | nil =>
    intro d _ _ hinv
    exact ⟨hinv, rfl, rfl⟩
  | cons op rest ih =>
    intro d hok hlen hinv
    have hop : op.ok = true := hok op (List.mem_cons_self _ _)
    have hlen1 : d.snapshots.length + 1 ≤ d.maxSnapshots := by
      have := List.length_cons op rest
      omega
    obtain ⟨snap, hsnaps, hsn, hcur, hmax⟩ :=
      createProjectSnapshot_step_inv d root op.fs op.porcelain op.forceResult
        op.id op.ts op.prompt hlen1
    have hcount : d.snapshots.length = d.currentSaveNumber := by
      have h1 := congrArg List.length hinv
      simpa using h1
    have hstep : runHistory root d (op :: rest) =
        runHistory root
          ((createProjectSnapshot d root op.fs op.porcelain op.forceResult
            false op.id op.ts op.prompt).1) rest := by
      unfold runHistory
      rw [List.foldl_cons, hop]
      rfl
    rw [hstep]
    set d1 := (createProjectSnapshot d root op.fs op.porcelain op.forceResult
      false op.id op.ts op.prompt).1 with hd1
    have hinv1 : d1.snapshots.map (fun s => s.saveNumber) =
        List.range' 1 d1.currentSaveNumber := by
      rw [hsnaps, hcur, List.map_append, hinv]
      simp only [List.map_cons, List.map_nil, hsn]
      rw [range_one_concat]
      simp [Nat.add_comm]
    have hlen2 : d1.snapshots.length + rest.length ≤ d1.maxSnapshots := by
      rw [hsnaps, hmax]
      have := List.length_cons op rest
      simp only [List.length_append, List.length_cons, List.length_nil]
      omega
    obtain ⟨r1, r2, r3⟩ := ih d1 (fun o ho => hok o (List.mem_cons_of_mem _ ho)) hlen2 hinv1
    refine ⟨r1, ?_, by rw [r3, hmax]⟩
    rw [r2, hcur]
    simp only [List.length_cons]
    omega

/-- C4 counterexample: in a history where the second call fails with an
I/O error during materialisation, the counter still advances, so the
stored save numbers are [1, 3] with current_save_number 3 - not the
contiguous sequence 1..3 the claim asserts for histories that include
failing calls. -/
theorem c4_contiguous_counterexample :
    (runHistory "/r" initialProjData
      [{ ok := true, id := "n1", ts := 100, porcelain := some ["M  a.txt"]
         forceResult := [], fs := [("/r/a.txt", { content := "one", mtime := 50 })]
         prompt := "p1" },
       { ok := false, id := "n2", ts := 200, porcelain := some ["M  a.txt"]
         forceResult := [], fs := [("/r/a.txt", { content := "two", mtime := 150 })]
         prompt := "p2" },
       { ok := true, id := "n3", ts := 300, porcelain := some ["M  a.txt"]
         forceResult := [], fs := [("/r/a.txt", { content := "three", mtime := 250 })]
         prompt := "p3" }]).snapshots.map (fun s => s.saveNumber) = [1, 3] ∧
    (runHistory "/r" initialProjData
      [{ ok := true, id := "n1", ts := 100, porcelain := some ["M  a.txt"]
         forceResult := [], fs := [("/r/a.txt", { content := "one", mtime := 50 })]
         prompt := "p1" },
       { ok := false, id := "n2", ts := 200, porcelain := some ["M  a.txt"]
         forceResult := [], fs := [("/r/a.txt", { content := "two", mtime := 150 })]
         prompt := "p2" },
       { ok := true, id := "n3", ts := 300, porcelain := some ["M  a.txt"]
         forceResult := [], fs := [("/r/a.txt", { content := "three", mtime := 250 })]
         prompt := "p3" }]).currentSaveNumber = 3 ∧
    [1, 3] ≠ List.range' 1 3 := by
  decide

/-- C4 amended: for every history of `create_project_snapshot` calls in
which every call succeeds and the store never exceeds the retention cap
(so cleanup never trims), the stored save numbers are exactly the
contiguous sequence `1..current_save_number` - no gaps, no duplicates -
and strictly increase along creation order.  A failing call advances the
counter without storing a snapshot (leaving a permanent gap), and a
trimming cleanup drops the oldest snapshots (so the sequence no longer
starts at 1). -/
theorem c4_contiguous_amended (root : String) (ops : List COp)
    (hok : ∀ op ∈ ops, op.ok = true)
    (hcap : ops.length ≤ 100) :
    (runHistory root initialProjData ops).snapshots.map (fun s => s.saveNumber) =
      List.range' 1 (runHistory root initialProjData ops).currentSaveNumber ∧
    (runHistory root initialProjData ops).currentSaveNumber = ops.length ∧
    List.Pairwise (· < ·)
      ((runHistory root initialProjData ops).snapshots.map (fun s => s.saveNumber)) := by
  obtain ⟨h1, h2, _⟩ := runHistory_inv root ops initialProjData hok
    (by simpa [initialProjData] using hcap) (by rfl)
  refine ⟨h1, by simpa [initialProjData] using h2, ?_⟩
  rw [h1]
  exact List.pairwise_lt_range' _ _

/-- C4 witness: a two-call history of successful saves yields save
numbers [1, 2] and counter 2. -/
theorem c4_contiguous_amended_witness :
    (runHistory "/r" initialProjData
      [{ ok := true, id := "n1", ts := 100, porcelain := some ["M  a.txt"]
         forceResult := [], fs := [("/r/a.txt", { content := "one", mtime := 50 })]
         prompt := "p1" },
       { ok := true, id := "n2", ts := 200, porcelain := some ["M  a.txt"]
         forceResult := [], fs := [("/r/a.txt", { content := "two", mtime := 150 })]
         prompt := "p2" }]).snapshots.map (fun s => s.saveNumber) =
      List.range' 1 (runHistory "/r" initialProjData
      [{ ok := true, id := "n1", ts := 100, porcelain := some ["M  a.txt"]
         forceResult := [], fs := [("/r/a.txt", { content := "one", mtime := 50 })]
         prompt := "p1" },
       { ok := true, id := "n2", ts := 200, porcelain := some ["M  a.txt"]
         forceResult := [], fs := [("/r/a.txt", { content := "two", mtime := 150 })]
         prompt := "p2" }]).currentSaveNumber ∧
    (runHistory "/r" initialProjData
      [{ ok := true, id := "n1", ts := 100, porcelain := some ["M  a.txt"]
         forceResult := [], fs := [("/r/a.txt", { content := "one", mtime := 50 })]
         prompt := "p1" },
       { ok := true, id := "n2", ts := 200, porcelain := some ["M  a.txt"]
         forceResult := [], fs := [("/r/a.txt", { content := "two", mtime := 150 })]
         prompt := "p2" }]).currentSaveNumber = 2 := by
  have h := c4_contiguous_amended "/r"
    [{ ok := true, id := "n1", ts := 100, porcelain := some ["M  a.txt"]
       forceResult := [], fs := [("/r/a.txt", { content := "one", mtime := 50 })]
       prompt := "p1" },
     { ok := true, id := "n2", ts := 200, porcelain := some ["M  a.txt"]
       forceResult := [], fs := [("/r/a.txt", { content := "two", mtime := 150 })]
       prompt := "p2" }]
    (by decide) (by decide)
  exact ⟨h.1, h.2.1⟩

/- ### C3 -/

/-- C3 counterexample: with snapshots #1 (full, empty directory),
#2 (incremental, the target) and #3 (full, non-empty), the degraded
fallback of the planner picks #3 - newest full by timestamp - so the plan
is `[#3]`: it does not start with a full whose save_number is at most the
target's, and it does not end at the target. -/
theorem c3_planner_counterexample :
    buildRestoreChain
      [{ id := "f1", timestamp := 1, saveNumber := 1, kind := SnapKind.full
         changedFiles := ["*"], prompt := "a" },
       { id := "i2", timestamp := 2, saveNumber := 2, kind := SnapKind.incremental
         changedFiles := ["a.txt"], prompt := "b" },
       { id := "f3", timestamp := 3, saveNumber := 3, kind := SnapKind.full
         changedFiles := ["*"], prompt := "c" }]
      (fun i => !(i == "f1"))
      { id := "i2", timestamp := 2, saveNumber := 2, kind := SnapKind.incremental
        changedFiles := ["a.txt"], prompt := "b" } =
      some [{ id := "f3", timestamp := 3, saveNumber := 3, kind := SnapKind.full
              changedFiles := ["*"], prompt := "c" }] ∧
    ¬((3 : Nat) ≤ 2) ∧
    ([{ id := "f3", timestamp := 3, saveNumber := 3, kind := SnapKind.full
        changedFiles := ["*"], prompt := "c" }] : List ProjSnapshot).getLast? ≠
      some { id := "i2", timestamp := 2, saveNumber := 2, kind := SnapKind.incremental
             changedFiles := ["a.txt"], prompt := "b" } := by
  decide

theorem foldl_forwardStep_incs (snaps : List ProjSnapshot) (ne : String → Bool)
    (nums : List Nat) (acc : List ProjSnapshot)
    (h : ∀ n ∈ nums, ∃ s, snaps.find? (fun x => x.saveNumber == n) = some s ∧
      s.kind ≠ SnapKind.full) :
    nums.foldl (forwardStep snaps ne) acc =
      acc ++ nums.filterMap (fun n => snaps.find? (fun x => x.saveNumber == n)) := by
  induction nums generalizing acc with
  | nil => simp
  | cons n rest ih =>
    obtain ⟨s, hfs, hsk⟩ := h n (List.mem_cons_self _ _)
    have hstep : forwardStep snaps ne acc n = acc ++ [s] := by
      unfold forwardStep
      simp only [hfs]
      rw [if_neg hsk]
    rw [List.foldl_cons, hstep, List.filterMap_cons, hfs,
      ih (acc ++ [s]) (fun m hm => h m (List.mem_cons_of_mem _ hm))]
    simp

theorem map_saveNumber_filterMap (snaps : List ProjSnapshot) (nums : List Nat)
    (h : ∀ n ∈ nums, (snaps.find? (fun x => x.saveNumber == n)).isSome = true) :
    (nums.filterMap (fun n => snaps.find? (fun x => x.saveNumber == n))).map
      (fun s => s.saveNumber) = nums := by
  induction nums with
  | nil => rfl
  | cons n rest ih =>
    have hsome := h n (List.mem_cons_self _ _)
    cases hfs : snaps.find? (fun x => x.saveNumber == n) with
    | none => rw [hfs] at hsome; exact absurd hsome (by simp)
    | some s =>
      have hsn : s.saveNumber = n := by
        have := List.find?_some hfs
        simpa using this
      rw [List.filterMap_cons, hfs, List.map_cons, hsn,
        ih (fun m hm => h m (List.mem_cons_of_mem _ hm))]

theorem scanBackFull_spec (snaps : List ProjSnapshot) (ne : String → Bool)
    (hne : ∀ s ∈ snaps, s.kind = SnapKind.full → ne s.id = true) :
    ∀ i : Nat,
      (∃ j s, 1 ≤ j ∧ j ≤ i ∧ snaps.find? (fun x => x.saveNumber == j) = some s ∧
        s.kind = SnapKind.full) →
      ∃ b, scanBackFull snaps ne i = some b ∧ b.kind = SnapKind.full ∧
        snaps.find? (fun x => x.saveNumber == b.saveNumber) = some b ∧
        1 ≤ b.saveNumber ∧ b.saveNumber ≤ i ∧
        (∀ j s, b.saveNumber < j → j ≤ i →
          snaps.find? (fun x => x.saveNumber == j) = some s → s.kind ≠ SnapKind.full) := by
  intro i
  induction i with
  | zero =>
    rintro ⟨j, s, h1, hj, _, _⟩
    omega
  | succ i ih =>
    rintro ⟨j, s, h1, hj, hfj, hsf⟩
    cases hfind : snaps.find? (fun x => x.saveNumber == (i + 1)) with
    | some t =>
      have htn : t.saveNumber = i + 1 := by simpa using List.find?_some hfind
      by_cases htf : t.kind = SnapKind.full
      · have hnet : ne t.id = true := hne t (List.mem_of_find?_eq_some hfind) htf
        refine ⟨t, ?_, htf, ?_, by omega, by omega, ?_⟩
        · unfold scanBackFull
          simp only [hfind]
          rw [if_pos htf, if_pos hnet]
        · rw [htn]
          exact hfind
        · intro j' s' hgt hle _
          exfalso
          omega
      · have hjle : j ≤ i := by
          rcases Nat.lt_or_ge j (i + 1) with hlt | hge
          · omega
          · have hj1 : j = i + 1 := by omega
            rw [hj1, hfind] at hfj
            injection hfj with he
            rw [he] at htf
            exact absurd hsf htf
        obtain ⟨b, hscan, hbf, hbfind, hb1, hble, hbmax⟩ := ih ⟨j, s, h1, hjle, hfj, hsf⟩
        refine ⟨b, ?_, hbf, hbfind, hb1, by omega, ?_⟩
        · unfold scanBackFull
          simp only [hfind]
          rw [if_neg htf]
          exact hscan
        · intro j' s' hgt hle hfj'
          rcases Nat.lt_or_ge j' (i + 1) with hlt | hge
          · exact hbmax j' s' hgt (by omega) hfj'
          · have hj1 : j' = i + 1 := by omega
            rw [hj1, hfind] at hfj'
            injection hfj' with he
            rw [← he]
            exact htf
    | none =>
      have hjle : j ≤ i := by
        rcases Nat.lt_or_ge j (i + 1) with hlt | hge
        · omega
        · have hj1 : j = i + 1 := by omega
          rw [hj1, hfind] at hfj
          exact absurd hfj (by simp)
      obtain ⟨b, hscan, hbf, hbfind, hb1, hble, hbmax⟩ := ih ⟨j, s, h1, hjle, hfj, hsf⟩
      refine ⟨b, ?_, hbf, hbfind, hb1, by omega, ?_⟩
      · unfold scanBackFull
        simp only [hfind]
        exact hscan
      · intro j' s' hgt hle hfj'
        rcases Nat.lt_or_ge j' (i + 1) with hlt | hge
        · exact hbmax j' s' hgt (by omega) hfj'
        · have hj1 : j' = i + 1 := by omega
          rw [hj1, hfind] at hfj'
          exact absurd hfj' (by simp)

/-- C3 amended: for an incremental target in a store whose save numbers
1..target are all present (with whatever numbering the store has),
whose snapshot #1 is full, and all of whose full snapshots have
non-empty directories, the plan starts with the most recent full below
the target (so its save_number is at most the target's), its save
numbers are contiguous, and it ends at the target.  In this
uncorrupted setting the reset-to-a-later-full branch of the forward
loop cannot fire, because the backward scan already picked the most
recent usable full.  (Without the non-empty-directory hypothesis the
claim fails: see the counterexample, where the degraded fallback picks
a LATER full and the plan neither starts below the target nor ends at
it.) -/
theorem c3_planner_amended (snaps : List ProjSnapshot) (ne : String → Bool)
    (target : ProjSnapshot) (s1 : ProjSnapshot)
    (htinc : target.kind = SnapKind.incremental)
    (hpos : 1 ≤ target.saveNumber)
    (htfind : snaps.find? (fun x => x.saveNumber == target.saveNumber) = some target)
    (hall : ∀ n, 1 ≤ n → n ≤ target.saveNumber →
      (snaps.find? (fun x => x.saveNumber == n)).isSome = true)
    (hs1 : snaps.find? (fun x => x.saveNumber == 1) = some s1)
    (hs1full : s1.kind = SnapKind.full)
    (hne : ∀ s ∈ snaps, s.kind = SnapKind.full → ne s.id = true) :
    ∃ b chain,
      buildRestoreChain snaps ne target = some chain ∧
      chain.head? = some b ∧
      b.kind = SnapKind.full ∧
      b.saveNumber ≤ target.saveNumber ∧
      chain.map (fun s => s.saveNumber) =
        List.range' b.saveNumber (target.saveNumber + 1 - b.saveNumber) ∧
      chain.getLast? = some target := by
  have ht2 : 2 ≤ target.saveNumber := by
    rcases Nat.lt_or_ge target.saveNumber 2 with hlt | hge
    · exfalso
      have ht1 : target.saveNumber = 1 := by omega
      rw [ht1] at htfind
      rw [htfind] at hs1
      injection hs1 with he
      rw [← he] at hs1full
      rw [htinc] at hs1full
      exact absurd hs1full (by decide)
    · exact hge
  obtain ⟨b, hscan, hbf, hbfind, hb1, hble, hbmax⟩ :=
    scanBackFull_spec snaps ne hne (target.saveNumber - 1)
      ⟨1, s1, le_refl 1, by omega, hs1, hs1full⟩
  have hrange : ∀ n ∈ List.range' (b.saveNumber + 1) (target.saveNumber - b.saveNumber),
      ∃ s, snaps.find? (fun x => x.saveNumber == n) = some s ∧ s.kind ≠ SnapKind.full := by
    intro n hn
    rw [List.mem_range'_1] at hn
    obtain ⟨hn1, hn2⟩ := hn
    have hnle : n ≤ target.saveNumber := by omega
    have hsome := hall n (by omega) hnle
    cases hfs : snaps.find? (fun x => x.saveNumber == n) with
    | none =>
      rw [hfs] at hsome
      exact absurd hsome (by simp)
    | some s =>
      refine ⟨s, rfl, ?_⟩
      rcases Nat.lt_or_ge n target.saveNumber with hlt | hge
      · exact hbmax n s (by omega) (by omega) hfs
      · have hnt : n = target.saveNumber := by omega
        rw [hnt, htfind] at hfs
        injection hfs with he
        rw [← he, htinc]
        decide
  have hnotfull : ¬(target.kind = SnapKind.full) := by
    rw [htinc]
    decide
  have hchain : buildRestoreChain snaps ne target =
      some ((List.range' (b.saveNumber + 1) (target.saveNumber - b.saveNumber)).foldl
        (forwardStep snaps ne) [b]) := by
    unfold buildRestoreChain
    rw [if_neg hnotfull]
    dsimp only
    simp only [hscan]
  rw [hchain, foldl_forwardStep_incs snaps ne _ [b] hrange]
  have hisome : ∀ n ∈ List.range' (b.saveNumber + 1) (target.saveNumber - b.saveNumber),
      (snaps.find? (fun x => x.saveNumber == n)).isSome = true := by
    intro n hn
    obtain ⟨s, hfs, _⟩ := hrange n hn
    rw [hfs]
    rfl
  refine ⟨b, _, rfl, rfl, hbf, by omega, ?_, ?_⟩
  · rw [List.map_append]
    simp only [List.map_cons, List.map_nil]
    rw [map_saveNumber_filterMap snaps _ hisome]
    have hr := List.range'_succ b.saveNumber (target.saveNumber - b.saveNumber) 1
    have hlen : (target.saveNumber - b.saveNumber) + 1 =
        target.saveNumber + 1 - b.saveNumber := by omega
    rw [← hlen, hr]
    rfl
  · have hlenpos : target.saveNumber - b.saveNumber =
        (target.saveNumber - b.saveNumber - 1) + 1 := by omega
    rw [hlenpos, range_one_concat, List.filterMap_append]
    have hlast : (b.saveNumber + 1) + (target.saveNumber - b.saveNumber - 1) =
        target.saveNumber := by omega
    rw [hlast]
    simp only [List.filterMap_cons, htfind, List.filterMap_nil]
    rw [← List.append_assoc]
    exact List.getLast?_concat _

/-- C3 witness: in a healthy store [#1 full, #2 incremental,
#3 incremental] with non-empty directories, the plan for #3 is the
contiguous chain starting at the full #1 and ending at #3. -/
theorem c3_planner_amended_witness :
    ∃ b chain,
      buildRestoreChain
        [{ id := "f1", timestamp := 1, saveNumber := 1, kind := SnapKind.full
           changedFiles := ["*"], prompt := "a" },
         { id := "i2", timestamp := 2, saveNumber := 2, kind := SnapKind.incremental
           changedFiles := ["a.txt"], prompt := "b" },
         { id := "i3", timestamp := 3, saveNumber := 3, kind := SnapKind.incremental
           changedFiles := ["b.txt"], prompt := "c" }]
        (fun _ => true)
        { id := "i3", timestamp := 3, saveNumber := 3, kind := SnapKind.incremental
          changedFiles := ["b.txt"], prompt := "c" } = some chain ∧
      chain.head? = some b ∧
      b.kind = SnapKind.full ∧
      b.saveNumber ≤ 3 ∧
      chain.map (fun s => s.saveNumber) = List.range' b.saveNumber (3 + 1 - b.saveNumber) ∧
      chain.getLast? = some { id := "i3", timestamp := 3, saveNumber := 3
                              kind := SnapKind.incremental, changedFiles := ["b.txt"]
                              prompt := "c" } :=
  c3_planner_amended
    [{ id := "f1", timestamp := 1, saveNumber := 1, kind := SnapKind.full
       changedFiles := ["*"], prompt := "a" },
     { id := "i2", timestamp := 2, saveNumber := 2, kind := SnapKind.incremental
       changedFiles := ["a.txt"], prompt := "b" },
     { id := "i3", timestamp := 3, saveNumber := 3, kind := SnapKind.incremental
       changedFiles := ["b.txt"], prompt := "c" }]
    (fun _ => true)
    { id := "i3", timestamp := 3, saveNumber := 3, kind := SnapKind.incremental
      changedFiles := ["b.txt"], prompt := "c" }
    { id := "f1", timestamp := 1, saveNumber := 1, kind := SnapKind.full
      changedFiles := ["*"], prompt := "a" }
    (by decide) (by decide) (by decide)
    (by
      intro n h1 h2
      interval_cases n <;> decide)
    (by decide) (by decide) (by decide)
